import Mathlib

/-!
Verification of the Nusfjord setup generator (src/main.rs).

The program is embedded shallowly: the embedded TSV loader, the deck
selection, the setup/round dealing pipeline and the renderer flags are
translated to executable Lean definitions.  Randomness (shuffling of the
pools with a thread-local RNG) is modelled by parameterising runs over
arbitrary shuffle results; theorems that depend on pool contents assume
only that the shuffled list is a permutation of the filtered pool.
Iterator draws via next().unwrap() are modelled with Except: a draw from
an exhausted pool aborts the whole run with Except.error.
-/

/-- The five decks of the game, `enum Decks` in the source. -/
inductive Decks where
  | Codfish
  | Mackerel
  | Herring
  | Plaice
  | Salmon
deriving DecidableEq

/-- One card record, `struct Building` in the source: name, identifier
(number), deck membership, section tag (abc) and category label (color). -/
structure Building where
  name : String
  number : String
  deck : Decks
  abc : String
  color : String
deriving DecidableEq

/-- Decks.from_str: parses a deck name, failing on anything else. -/
def decksFromStr (s : String) : Except String Decks :=
  if s = "Codfish" then .ok Decks.Codfish
  else if s = "Mackerel" then .ok Decks.Mackerel
  else if s = "Herring" then .ok Decks.Herring
  else if s = "Plaice" then .ok Decks.Plaice
  else if s = "Salmon" then .ok Decks.Salmon
  else .error "no match"

/-- Deserialization of one TSV data row (after the header) into a
Building: the five fields in order name, number, deck, abc, color; a row
with the wrong number of fields or an unknown deck fails. -/
def parseBuilding (fields : List String) : Except String Building :=
  match fields with
  | [name, number, deckStr, abc, color] =>
    match decksFromStr deckStr with
    | .ok d => .ok { name := name, number := number, deck := d, abc := abc, color := color }
    | .error e => .error e
  | _ => .error "wrong number of fields"

/-- The loader: `rdr.deserialize::<Building>().filter_map(Result::ok)` —
rows that fail to parse are dropped, successful ones kept in order. -/
def loadBuildings (rows : List (List String)) : List Building :=
  match rows with
  | [] => []
  | r :: rs =>
    match parseBuilding r with
    | .ok b => b :: loadBuildings rs
    | .error _ => loadBuildings rs

/-- CLI argument matches relevant to deck selection: the optional
deck list of the add flag (-a) and the two convenience flags. -/
structure CliArgs where
  addin : Option (List Decks)
  allbase : Bool
  alldecks : Bool

/-- EnumSet insert, modelled on a list with set semantics. -/
def insertDeck (s : List Decks) (d : Decks) : List Decks :=
  if d ∈ s then s else s ++ [d]

/-- EnumSet union, modelled on lists with set semantics. -/
def unionDecks (s t : List Decks) : List Decks :=
  t.foldl insertDeck s

/-- fn decks_to_use: starts from the singleton of the main deck; with
`-a` inserts each added deck; else `--all-base-decks` unions in Codfish,
Herring and Mackerel; else `--all-decks` unions in all five; else the
singleton is returned. -/
def decks_to_use (main_deck : Decks) (m : CliArgs) : List Decks :=
  let retval := [main_deck]
  match m.addin with
  | some ds => ds.foldl insertDeck retval
  | none =>
    if m.allbase then
      unionDecks retval [Decks.Codfish, Decks.Herring, Decks.Mackerel]
    else if m.alldecks then
      unionDecks retval [Decks.Codfish, Decks.Herring, Decks.Mackerel, Decks.Plaice, Decks.Salmon]
    else retval

/-- The text colors produced by the `colored` crate calls in colorize. -/
inductive DisplayColor where
  | black
  | blue
  | red
  | yellow
  | brightYellow
  | brightBlack
  | green
  | white
deriving DecidableEq

/-- fn colorize: black whenever is_spoiler, otherwise a color chosen by
the category label, white as a fallback. -/
def colorize (text : String) (color : String) (is_spoiler : Bool) : String × DisplayColor :=
  if is_spoiler then (text, DisplayColor.black)
  else if color = "Anytime" then (text, DisplayColor.blue)
  else if color = "Immediately" then (text, DisplayColor.red)
  else if color = "Once" then (text, DisplayColor.yellow)
  else if color = "Victory Points" then (text, DisplayColor.brightYellow)
  else if color = "Special Ability" then (text, DisplayColor.brightBlack)
  else if color = "Whenever" then (text, DisplayColor.green)
  else (text, DisplayColor.white)

/-- The observable content of fn print_card_row: the colorized name and
number cells of each card, and whether the vertical separator bar is
printed after the second card (the source prints it at loop index 1 when
print_separator is set, so it appears iff the row has at least 2 cards). -/
structure RenderedRow where
  nameCells : List (String × DisplayColor)
  numberCells : List (String × DisplayColor)
  separatorAfterSecond : Bool
deriving DecidableEq

/-- fn print_card_row, reduced to its observable content. -/
def print_card_row (cards : List Building) (print_separator : Bool) (is_spoiler : Bool) :
    RenderedRow :=
  { nameCells := cards.map (fun c => colorize c.name c.color is_spoiler)
    numberCells := cards.map (fun c => colorize c.number c.color is_spoiler)
    separatorAfterSecond := print_separator && decide (2 ≤ cards.length) }

/-- One line of program output: a round header, a "Doing Player p" line,
or a call to print_card_row with its separator and spoiler flags. -/
inductive OutEvent where
  | header (s : String)
  | playerLine (p : Nat)
  | cardRow (cards : List Building) (sep : Bool) (spoiler : Bool)
deriving DecidableEq

/-- The card rows among a run's output events, in order. -/
def eventRows (evs : List OutEvent) : List (List Building) :=
  evs.filterMap (fun e =>
    match e with
    | OutEvent.cardRow cs _ _ => some cs
    | _ => none)

/-- Drawing n cards from the front of a pool with next().unwrap():
returns the drawn cards and the rest, or aborts if the pool runs out. -/
def drawN : Nat → List Building → Except Unit (List Building × List Building)
  | 0, pool => .ok ([], pool)
  | _ + 1, [] => .error ()
  | n + 1, c :: rest =>
    match drawN n rest with
    | .error e => .error e
    | .ok (cs, pool') => .ok (c :: cs, pool')

/-- Recording dealt cards: every card of the row whose deck is the main
deck has its number inserted into the dealt set (modelled as a list). -/
def recordDealt (main_deck : Decks) (dealt : List String) (cards : List Building) :
    List String :=
  cards.foldl (fun acc c => if c.deck = main_deck then c.number :: acc else acc) dealt

/-- The initial-setup loop of fn main: k rows, each made of 2 cards from
the B pool followed by 3 cards from the A pool, printed with the
separator on and the spoiler off; main-deck card numbers are recorded. -/
def setupLoop (main_deck : Decks) :
    Nat → List Building → List Building → List String →
    Except Unit (List OutEvent × List String)
  | 0, _, _, dealt => .ok ([], dealt)
  | k + 1, aPool, bPool, dealt =>
    match drawN 2 bPool with
    | .error e => .error e
    | .ok (bs, bPool') =>
      match drawN 3 aPool with
      | .error e => .error e
      | .ok (acs, aPool') =>
        let row := bs ++ acs
        match setupLoop main_deck k aPool' bPool' (recordDealt main_deck dealt row) with
        | .error e => .error e
        | .ok (evs, dealtF) => .ok (OutEvent.cardRow row true false :: evs, dealtF)

/-- Round 3 / round 5 output in fn main: only when the draw count is
positive, a header is printed and one row of that many cards is drawn
from the pool and printed with (separator := false, spoiler := true). -/
def roundOut (hdr : String) (n : Nat) (pool : List Building) : Except Unit (List OutEvent) :=
  if n > 0 then
    match drawN n pool with
    | .error e => .error e
    | .ok (cs, _) => .ok [OutEvent.header hdr, OutEvent.cardRow cs false true]
  else .ok []

/-- The per-player part of round 4: for each player index a "Doing
Player" line and a row of n cards drawn from the (shared) C pool. -/
def round4Loop : Nat → Nat → Nat → List Building → Except Unit (List OutEvent)
  | 0, _, _, _ => .ok []
  | p + 1, idx, n, pool =>
    match drawN n pool with
    | .error e => .error e
    | .ok (cs, pool') =>
      match round4Loop p (idx + 1) n pool' with
      | .error e => .error e
      | .ok rest => .ok (OutEvent.playerLine idx :: OutEvent.cardRow cs false true :: rest)

/-- Round 4 output in fn main: the header is printed unconditionally,
then one row per player. -/
def round4Out (players : Nat) (n : Nat) (pool : List Building) : Except Unit (List OutEvent) :=
  match round4Loop players 0 n pool with
  | .error e => .error e
  | .ok evs => .ok (OutEvent.header "******** ROUND 4 CARDS ********" :: evs)

/-- let round_3_a_cards = if players > 2 {players} else {0}. -/
def round_3_a_cards (players : Nat) : Nat :=
  if players > 2 then players else 0

/-- let round_4_c_cards = match players { 2 => 4, 3 => 3, 4 | 5 => 2, _ => 0 }. -/
def round_4_c_cards (players : Nat) : Nat :=
  match players with
  | 2 => 4
  | 3 => 3
  | 4 => 2
  | 5 => 2
  | _ => 0

/-- let round_5_b_cards = match players { 3 | 4 => 2, 5 => 3, _ => 0 }. -/
def round_5_b_cards (players : Nat) : Nat :=
  match players with
  | 3 => 2
  | 4 => 2
  | 5 => 3
  | _ => 0

/-- The initial-setup A pool: records of an active deck tagged "A". -/
def setup_a_buildings (all : List Building) (active : List Decks) : List Building :=
  all.filter (fun b => decide (b.deck ∈ active) && decide (b.abc = "A"))

/-- The initial-setup B pool: records of an active deck tagged "B". -/
def setup_b_buildings (all : List Building) (active : List Decks) : List Building :=
  all.filter (fun b => decide (b.deck ∈ active) && decide (b.abc = "B"))

/-- The in-game A pool: main-deck records tagged "A" whose number was not
already dealt. -/
def ingame_a_buildings (all : List Building) (main_deck : Decks) (dealt : List String) :
    List Building :=
  all.filter (fun b =>
    decide (b.deck = main_deck) && decide (b.abc = "A") && !(decide (b.number ∈ dealt)))

/-- The in-game B pool: main-deck records tagged "B" whose number was not
already dealt. -/
def ingame_b_buildings (all : List Building) (main_deck : Decks) (dealt : List String) :
    List Building :=
  all.filter (fun b =>
    decide (b.deck = main_deck) && decide (b.abc = "B") && !(decide (b.number ∈ dealt)))

/-- The in-game C pool: main-deck records tagged "C"; no dealt filter. -/
def ingame_c_buildings (all : List Building) (main_deck : Decks) : List Building :=
  all.filter (fun b => decide (b.deck = main_deck) && decide (b.abc = "C"))

/-- The whole pipeline of fn main after argument parsing and loading:
the five shuffles are arbitrary reorderings supplied as parameters.  The
result is the sequence of output events, or an abort when some
next().unwrap() fails. -/
def runProgram (players : Nat) (main_deck : Decks) (active : List Decks)
    (all : List Building)
    (shufSA shufSB shufIA shufIB shufIC : List Building → List Building) :
    Except Unit (List OutEvent) :=
  let sA := shufSA (setup_a_buildings all active)
  let sB := shufSB (setup_b_buildings all active)
  match setupLoop main_deck 3 sA sB [] with
  | .error e => .error e
  | .ok (setupEvs, dealt) =>
    let iA := shufIA (ingame_a_buildings all main_deck dealt)
    let iB := shufIB (ingame_b_buildings all main_deck dealt)
    let iC := shufIC (ingame_c_buildings all main_deck)
    match roundOut "********* ROUND 3 CARDS *********" (round_3_a_cards players) iA with
    | .error e => .error e
    | .ok r3 =>
      match round4Out players (round_4_c_cards players) iC with
      | .error e => .error e
      | .ok r4 =>
        match roundOut "********* ROUND 5 CARDS *********" (round_5_b_cards players) iB with
        | .error e => .error e
        | .ok r5 => .ok (setupEvs ++ r3 ++ r4 ++ r5)

/-! ## Characterizations of the dealing combinators -/

/-- drawN draws a prefix: it yields the first n cards and the rest, or
aborts when the pool is shorter than n. -/
theorem drawN_eq (n : Nat) : ∀ pool : List Building,
    drawN n pool =
      if n ≤ pool.length then Except.ok (pool.take n, pool.drop n) else Except.error () := by
  induction n with
  | zero => intro pool; simp [drawN]
  | succ n ih =>
    intro pool
    cases pool with
    | nil => simp [drawN]
    | cons c rest =>
      simp only [drawN, ih rest, List.length_cons]
      by_cases h : n ≤ rest.length
      · rw [if_pos h, if_pos (Nat.succ_le_succ h)]
        simp
      · rw [if_neg h, if_neg (fun hh => h (Nat.le_of_succ_le_succ hh))]

/-- The rows produced by the setup loop: per iteration, 2 cards from the
front of the B pool followed by 3 from the front of the A pool. -/
def setupRows : Nat → List Building → List Building → List OutEvent
  | 0, _, _ => []
  | k + 1, a, b =>
    OutEvent.cardRow (b.take 2 ++ a.take 3) true false :: setupRows k (a.drop 3) (b.drop 2)

/-- The dealt-number set produced by the setup loop. -/
def setupDealt (d : Decks) : Nat → List Building → List Building → List String → List String
  | 0, _, _, dealt => dealt
  | k + 1, a, b, dealt =>
    setupDealt d k (a.drop 3) (b.drop 2) (recordDealt d dealt (b.take 2 ++ a.take 3))

/-- The setup loop succeeds exactly when both pools are large enough, and
then produces setupRows and setupDealt. -/
theorem setupLoop_eq (d : Decks) (k : Nat) : ∀ (a b : List Building) (dealt : List String),
    setupLoop d k a b dealt =
      if 2 * k ≤ b.length ∧ 3 * k ≤ a.length then
        Except.ok (setupRows k a b, setupDealt d k a b dealt)
      else Except.error () := by
  induction k with
  | zero => intro a b dealt; simp [setupLoop, setupRows, setupDealt]
  | succ k ih =>
    intro a b dealt
    by_cases hb : 2 ≤ b.length
    · by_cases ha : 3 ≤ a.length
      · have hcond : (2 * (k + 1) ≤ b.length ∧ 3 * (k + 1) ≤ a.length) ↔
            (2 * k ≤ (b.drop 2).length ∧ 3 * k ≤ (a.drop 3).length) := by
          simp only [List.length_drop]
          omega
        simp only [setupLoop, drawN_eq, if_pos hb, if_pos ha, ih]
        by_cases hrec : 2 * k ≤ (b.drop 2).length ∧ 3 * k ≤ (a.drop 3).length
        · rw [if_pos hrec, if_pos (hcond.mpr hrec)]
          simp [setupRows, setupDealt]
        · rw [if_neg hrec, if_neg (fun hc => hrec (hcond.mp hc))]
      · have hno : ¬(2 * (k + 1) ≤ b.length ∧ 3 * (k + 1) ≤ a.length) := by omega
        simp [setupLoop, drawN_eq, if_pos hb, if_neg ha, if_neg hno]
    · have hno : ¬(2 * (k + 1) ≤ b.length ∧ 3 * (k + 1) ≤ a.length) := by omega
      simp [setupLoop, drawN_eq, if_neg hb, if_neg hno]

/-- The events produced by the round-4 loop: per player, a player line
and a row of the next n cards of the C pool. -/
def round4Rows : Nat → Nat → Nat → List Building → List OutEvent
  | 0, _, _, _ => []
  | p + 1, i, n, pool =>
    OutEvent.playerLine i :: OutEvent.cardRow (pool.take n) false true ::
      round4Rows p (i + 1) n (pool.drop n)

/-- The round-4 loop succeeds exactly when the pool holds players * n
cards, and then produces round4Rows. -/
theorem round4Loop_eq (p : Nat) : ∀ (i n : Nat) (pool : List Building),
    round4Loop p i n pool =
      if p * n ≤ pool.length then Except.ok (round4Rows p i n pool) else Except.error () := by
  induction p with
  | zero => intro i n pool; simp [round4Loop, round4Rows]
  | succ p ih =>
    intro i n pool
    have hs : (p + 1) * n = p * n + n := by ring
    by_cases hn : n ≤ pool.length
    · have hcond : ((p + 1) * n ≤ pool.length) ↔ (p * n ≤ (pool.drop n).length) := by
        rw [hs, List.length_drop]
        generalize p * n = q
        omega
      simp only [round4Loop, drawN_eq, if_pos hn, ih]
      by_cases hrec : p * n ≤ (pool.drop n).length
      · rw [if_pos hrec, if_pos (hcond.mpr hrec)]
        simp [round4Rows]
      · rw [if_neg hrec, if_neg (fun hc => hrec (hcond.mp hc))]
    · have hge : ¬((p + 1) * n ≤ pool.length) := fun hc =>
        hn (le_trans (Nat.le_add_left n (p * n)) (hs ▸ hc))
      simp [round4Loop, drawN_eq, if_neg hn, if_neg hge]

/-- roundOut in closed form: skipped when the count is zero; otherwise a
header plus the first n cards of the pool, or an abort. -/
theorem roundOut_eq (hdr : String) (n : Nat) (pool : List Building) :
    roundOut hdr n pool =
      if 0 < n then
        (if n ≤ pool.length then
          Except.ok [OutEvent.header hdr, OutEvent.cardRow (pool.take n) false true]
        else Except.error ())
      else Except.ok [] := by
  by_cases h : 0 < n
  · by_cases hl : n ≤ pool.length <;> simp [roundOut, drawN_eq, h, hl]
  · simp [roundOut, h]

@[simp]
theorem eventRows_nil : eventRows [] = [] := rfl

@[simp]
theorem eventRows_cons_header (s : String) (evs : List OutEvent) :
    eventRows (OutEvent.header s :: evs) = eventRows evs := rfl

@[simp]
theorem eventRows_cons_player (p : Nat) (evs : List OutEvent) :
    eventRows (OutEvent.playerLine p :: evs) = eventRows evs := rfl

@[simp]
theorem eventRows_cons_row (cs : List Building) (sep sp : Bool) (evs : List OutEvent) :
    eventRows (OutEvent.cardRow cs sep sp :: evs) = cs :: eventRows evs := rfl

@[simp]
theorem eventRows_append (l1 l2 : List OutEvent) :
    eventRows (l1 ++ l2) = eventRows l1 ++ eventRows l2 := by
  simp [eventRows, List.filterMap_append]

/-- Facts about the rows dealt by the round-4 loop on a sufficient pool:
one row per player, each of exactly n cards, all taken from the pool. -/
theorem round4Rows_facts (p : Nat) : ∀ (i n : Nat) (pool : List Building),
    p * n ≤ pool.length →
      (eventRows (round4Rows p i n pool)).length = p ∧
      (∀ r ∈ eventRows (round4Rows p i n pool), r.length = n) ∧
      (∀ r ∈ eventRows (round4Rows p i n pool), ∀ c ∈ r, c ∈ pool) := by
  induction p with
  | zero => intro i n pool _; simp [round4Rows]
  | succ p ih =>
    intro i n pool h
    have hs : (p + 1) * n = p * n + n := by ring
    have hn : n ≤ pool.length := by
      rw [hs] at h; exact le_trans (Nat.le_add_left n _) h
    have hrec : p * n ≤ (pool.drop n).length := by
      rw [List.length_drop]
      rw [hs] at h
      generalize p * n = q at h ⊢
      omega
    obtain ⟨h1, h2, h3⟩ := ih (i + 1) n (pool.drop n) hrec
    simp only [round4Rows, eventRows_cons_player, eventRows_cons_row]
    refine ⟨by simp [h1], ?_, ?_⟩
    · intro r hr
      rcases List.mem_cons.mp hr with hr | hr
      · subst hr
        simp [List.length_take, Nat.min_eq_left hn]
      · exact h2 r hr
    · intro r hr c hc
      rcases List.mem_cons.mp hr with hr | hr
      · subst hr
        exact List.mem_of_mem_take hc
      · exact List.mem_of_mem_drop (h3 r hr c hc)

/-- Every card row emitted by the round-4 loop carries the flags
(separator := false, spoiler := true). -/
theorem round4Rows_flags (p : Nat) : ∀ (i n : Nat) (pool : List Building)
    (cs : List Building) (sep sp : Bool),
    OutEvent.cardRow cs sep sp ∈ round4Rows p i n pool → sep = false ∧ sp = true := by
  induction p with
  | zero => intro i n pool cs sep sp h; simp [round4Rows] at h
  | succ p ih =>
    intro i n pool cs sep sp h
    simp only [round4Rows, List.mem_cons] at h
    rcases h with h | h | h
    · cases h
    · cases h; exact ⟨rfl, rfl⟩
    · exact ih (i + 1) n (pool.drop n) cs sep sp h

/-- Every card row emitted by the setup loop carries the flags
(separator := true, spoiler := false). -/
theorem setupRows_flags (k : Nat) : ∀ (a b : List Building)
    (cs : List Building) (sep sp : Bool),
    OutEvent.cardRow cs sep sp ∈ setupRows k a b → sep = true ∧ sp = false := by
  induction k with
  | zero => intro a b cs sep sp h; simp [setupRows] at h
  | succ k ih =>
    intro a b cs sep sp h
    simp only [setupRows, List.mem_cons] at h
    rcases h with h | h
    · cases h; exact ⟨rfl, rfl⟩
    · exact ih (a.drop 3) (b.drop 2) cs sep sp h

/-- round4Out in closed form. -/
theorem round4Out_eq (p n : Nat) (pool : List Building) :
    round4Out p n pool =
      if p * n ≤ pool.length then
        Except.ok (OutEvent.header "******** ROUND 4 CARDS ********" :: round4Rows p 0 n pool)
      else Except.error () := by
  unfold round4Out
  rw [round4Loop_eq]
  by_cases h : p * n ≤ pool.length <;> simp [h]

/-- Inversion for a successful roundOut. -/
theorem roundOut_ok_inv (hdr : String) (n : Nat) (pool : List Building) (evs : List OutEvent)
    (h : roundOut hdr n pool = Except.ok evs) :
    (n = 0 ∧ evs = []) ∨
    (0 < n ∧ n ≤ pool.length ∧
      evs = [OutEvent.header hdr, OutEvent.cardRow (pool.take n) false true]) := by
  rw [roundOut_eq] at h
  by_cases h0 : 0 < n
  · rw [if_pos h0] at h
    by_cases hl : n ≤ pool.length
    · rw [if_pos hl] at h
      right
      exact ⟨h0, hl, (Except.ok.inj h).symm⟩
    · rw [if_neg hl] at h
      cases h
  · rw [if_neg h0] at h
    left
    exact ⟨by omega, (Except.ok.inj h).symm⟩

/-- Inversion for a successful round4Out. -/
theorem round4Out_ok_inv (p n : Nat) (pool : List Building) (evs : List OutEvent)
    (h : round4Out p n pool = Except.ok evs) :
    p * n ≤ pool.length ∧
      evs = OutEvent.header "******** ROUND 4 CARDS ********" :: round4Rows p 0 n pool := by
  rw [round4Out_eq] at h
  by_cases hl : p * n ≤ pool.length
  · rw [if_pos hl] at h
    exact ⟨hl, (Except.ok.inj h).symm⟩
  · rw [if_neg hl] at h
    cases h

/-- Inversion for a successful setupLoop. -/
theorem setupLoop_ok_inv (d : Decks) (k : Nat) (a b : List Building) (dealt0 : List String)
    (evs : List OutEvent) (dealt : List String)
    (h : setupLoop d k a b dealt0 = Except.ok (evs, dealt)) :
    2 * k ≤ b.length ∧ 3 * k ≤ a.length ∧ evs = setupRows k a b ∧
      dealt = setupDealt d k a b dealt0 := by
  rw [setupLoop_eq] at h
  by_cases hc : 2 * k ≤ b.length ∧ 3 * k ≤ a.length
  · rw [if_pos hc] at h
    have h2 := Except.ok.inj h
    cases h2
    exact ⟨hc.1, hc.2, rfl, rfl⟩
  · rw [if_neg hc] at h
    cases h

/-- Membership after an EnumSet insert. -/
theorem mem_insertDeck (s : List Decks) (d x : Decks) :
    x ∈ insertDeck s d ↔ x ∈ s ∨ x = d := by
  unfold insertDeck
  by_cases h : d ∈ s
  · rw [if_pos h]
    constructor
    · exact Or.inl
    · rintro (hx | rfl)
      · exact hx
      · exact h
  · rw [if_neg h]
    simp [List.mem_append]

/-- Membership after folding EnumSet inserts over a list. -/
theorem mem_foldl_insertDeck (ds : List Decks) : ∀ (s : List Decks) (x : Decks),
    x ∈ ds.foldl insertDeck s ↔ x ∈ s ∨ x ∈ ds := by
  induction ds with
  | nil => intro s x; simp
  | cons d ds ih =>
    intro s x
    simp only [List.foldl_cons, ih, mem_insertDeck, List.mem_cons]
    tauto

/-- Membership in an EnumSet union. -/
theorem mem_unionDecks (s t : List Decks) (x : Decks) :
    x ∈ unionDecks s t ↔ x ∈ s ∨ x ∈ t :=
  mem_foldl_insertDeck t s x

/-! ## The claims -/

/-- C4: a record belongs to one of the two initial-setup pools iff its
deck is in the active-deck set and its section tag is "A" or "B"; the two
pools are disjoint, "A"-tagged records going to the A pool and "B"-tagged
records to the B pool. -/
theorem claim_C4_setup_pool_membership (all : List Building) (active : List Decks)
    (b : Building) :
    ((b ∈ setup_a_buildings all active ∨ b ∈ setup_b_buildings all active) ↔
      (b ∈ all ∧ b.deck ∈ active ∧ (b.abc = "A" ∨ b.abc = "B")))
    ∧ ¬(b ∈ setup_a_buildings all active ∧ b ∈ setup_b_buildings all active)
    ∧ (b ∈ setup_a_buildings all active ↔ (b ∈ all ∧ b.deck ∈ active ∧ b.abc = "A"))
    ∧ (b ∈ setup_b_buildings all active ↔ (b ∈ all ∧ b.deck ∈ active ∧ b.abc = "B")) := by
  have hAB : ("A" : String) ≠ "B" := by decide
  simp only [setup_a_buildings, setup_b_buildings, List.mem_filter, Bool.and_eq_true,
    decide_eq_true_eq]
  refine ⟨by tauto, ?_, by tauto, by tauto⟩
  rintro ⟨⟨-, -, h1⟩, ⟨-, -, h2⟩⟩
  exact hAB (h1 ▸ h2)

/-- C6: the in-game pools, and the cards drawn from them in rounds 3, 4
and 5, contain only records of the primary deck; the pools are built from
the full record list and never consult the active-deck set. -/
theorem claim_C6_ingame_pools_primary_deck_only (all : List Building) (main_deck : Decks)
    (dealt : List String) (b : Building) :
    (b ∈ ingame_a_buildings all main_deck dealt → b.deck = main_deck)
    ∧ (b ∈ ingame_b_buildings all main_deck dealt → b.deck = main_deck)
    ∧ (b ∈ ingame_c_buildings all main_deck → b.deck = main_deck)
    ∧ (∀ shIA hdr n evs, shIA.Perm (ingame_a_buildings all main_deck dealt) →
        roundOut hdr n shIA = Except.ok evs →
        ∀ r ∈ eventRows evs, ∀ c ∈ r, c.deck = main_deck)
    ∧ (∀ shIB hdr n evs, shIB.Perm (ingame_b_buildings all main_deck dealt) →
        roundOut hdr n shIB = Except.ok evs →
        ∀ r ∈ eventRows evs, ∀ c ∈ r, c.deck = main_deck)
    ∧ (∀ shIC p n evs, shIC.Perm (ingame_c_buildings all main_deck) →
        round4Out p n shIC = Except.ok evs →
        ∀ r ∈ eventRows evs, ∀ c ∈ r, c.deck = main_deck) := by
  have memA : ∀ c : Building, c ∈ ingame_a_buildings all main_deck dealt → c.deck = main_deck := by
    intro c hc
    simp only [ingame_a_buildings, List.mem_filter, Bool.and_eq_true, decide_eq_true_eq] at hc
    exact hc.2.1.1
  have memB : ∀ c : Building, c ∈ ingame_b_buildings all main_deck dealt → c.deck = main_deck := by
    intro c hc
    simp only [ingame_b_buildings, List.mem_filter, Bool.and_eq_true, decide_eq_true_eq] at hc
    exact hc.2.1.1
  have memC : ∀ c : Building, c ∈ ingame_c_buildings all main_deck → c.deck = main_deck := by
    intro c hc
    simp only [ingame_c_buildings, List.mem_filter, Bool.and_eq_true, decide_eq_true_eq] at hc
    exact hc.2.1
  refine ⟨memA b, memB b, memC b, ?_, ?_, ?_⟩
  · intro shIA hdr n evs hperm hok r hr c hc
    rcases roundOut_ok_inv hdr n shIA evs hok with ⟨-, rfl⟩ | ⟨-, -, rfl⟩
    · simp at hr
    · simp only [eventRows_cons_header, eventRows_cons_row, eventRows_nil] at hr
      rcases List.mem_cons.mp hr with rfl | hr
      · exact memA c (hperm.mem_iff.mp (List.mem_of_mem_take hc))
      · simp at hr
  · intro shIB hdr n evs hperm hok r hr c hc
    rcases roundOut_ok_inv hdr n shIB evs hok with ⟨-, rfl⟩ | ⟨-, -, rfl⟩
    · simp at hr
    · simp only [eventRows_cons_header, eventRows_cons_row, eventRows_nil] at hr
      rcases List.mem_cons.mp hr with rfl | hr
      · exact memB c (hperm.mem_iff.mp (List.mem_of_mem_take hc))
      · simp at hr
  · intro shIC p n evs hperm hok r hr c hc
    obtain ⟨hlen, rfl⟩ := round4Out_ok_inv p n shIC evs hok
    simp only [eventRows_cons_header] at hr
    have := (round4Rows_facts p 0 n shIC hlen).2.2 r hr c hc
    exact memC c (hperm.mem_iff.mp this)

/-- C9: the loader keeps exactly the successfully parsed rows, in their
original order, and surfaces no parse failure (it is a total function
into a plain list). -/
theorem claim_C9_loader_drops_malformed_rows (rows : List (List String)) :
    loadBuildings rows = rows.filterMap (fun r => (parseBuilding r).toOption) := by
  induction rows with
  | nil => rfl
  | cons r rs ih =>
    cases h : parseBuilding r <;>
      simp [loadBuildings, h, List.filterMap_cons, Except.toOption, ih]

/-- C7: the active-deck set always contains the primary deck; with the
add flag it is the primary deck plus the listed decks, with
all-base-decks it is the primary deck plus Codfish, Herring and Mackerel,
with all-decks it is all five decks, and with none of these it is exactly
the singleton primary deck. -/
theorem claim_C7_decks_to_use (main_deck : Decks) (m : CliArgs) (x : Decks) :
    main_deck ∈ decks_to_use main_deck m
    ∧ (∀ ds, m.addin = some ds →
        (x ∈ decks_to_use main_deck m ↔ x = main_deck ∨ x ∈ ds))
    ∧ (m.addin = none → m.allbase = true →
        (x ∈ decks_to_use main_deck m ↔
          x = main_deck ∨ x ∈ [Decks.Codfish, Decks.Herring, Decks.Mackerel]))
    ∧ (m.addin = none → m.allbase = false → m.alldecks = true →
        (x ∈ decks_to_use main_deck m ↔
          x ∈ [Decks.Codfish, Decks.Mackerel, Decks.Herring, Decks.Plaice, Decks.Salmon]))
    ∧ (m.addin = none → m.allbase = false → m.alldecks = false →
        decks_to_use main_deck m = [main_deck]) := by
  obtain ⟨addin, allbase, alldecks⟩ := m
  cases addin with
  | some ds =>
    simp only [decks_to_use]
    refine ⟨?_, ?_, ?_, ?_, ?_⟩
    · rw [mem_foldl_insertDeck]
      exact Or.inl (List.mem_singleton.mpr rfl)
    · intro ds' h
      cases Option.some.inj h
      rw [mem_foldl_insertDeck]
      simp [List.mem_singleton]
    · intro h; cases h
    · intro h; cases h
    · intro h; cases h
  | none =>
    cases hb : allbase with
    | true =>
      simp only [decks_to_use, hb, eq_self_iff_true, if_true]
      refine ⟨?_, ?_, ?_, ?_, ?_⟩
      · rw [mem_unionDecks]
        exact Or.inl (List.mem_singleton.mpr rfl)
      · intro ds' h; cases h
      · intro _ _
        rw [mem_unionDecks]
        simp [List.mem_singleton]
      · intro _ h; cases h
      · intro _ h; cases h
    | false =>
      cases hd : alldecks with
      | true =>
        simp only [decks_to_use, hb, hd, Bool.false_eq_true, if_false, eq_self_iff_true,
          if_true]
        refine ⟨?_, ?_, ?_, ?_, ?_⟩
        · rw [mem_unionDecks]
          exact Or.inl (List.mem_singleton.mpr rfl)
        · intro ds' h; cases h
        · intro _ h; cases h
        · intro _ _ _
          rw [mem_unionDecks]
          simp only [List.mem_singleton, List.mem_cons, List.not_mem_nil, or_false]
          constructor
          · intro h
            rcases h with h | h
            · rw [h]; cases main_deck <;> simp
            · tauto
          · intro h
            right
            tauto
        · intro _ _ h; cases h
      | false =>
        simp only [decks_to_use, hb, hd, Bool.false_eq_true, if_false]
        refine ⟨List.mem_singleton.mpr rfl, ?_, ?_, ?_, ?_⟩
        · intro ds' h; cases h
        · intro _ h; cases h
        · intro _ _ h; cases h
        · intro _ _ _; trivial

/-- C8: a draw from an exhausted pool is fatal: drawN aborts, a positive
round draw on a short pool aborts with no partial row output, and a whole
run whose setup B pool cannot cover the six required cards aborts. -/
theorem claim_C8_pool_exhaustion_fatal
    (n : Nat) (pool : List Building) (hdr : String)
    (players : Nat) (main_deck : Decks) (active : List Decks) (all : List Building)
    (sSA sIA sIB sIC : List Building → List Building)
    (hpool : pool.length < n)
    (hshort : (setup_b_buildings all active).length < 6) :
    drawN n pool = Except.error ()
    ∧ roundOut hdr n pool = Except.error ()
    ∧ round4Out (players + 1) n pool = Except.error ()
    ∧ runProgram players main_deck active all sSA id sIA sIB sIC = Except.error () := by
  refine ⟨?_, ?_, ?_, ?_⟩
  · rw [drawN_eq, if_neg (by omega)]
  · rw [roundOut_eq, if_pos (by omega), if_neg (by omega)]
  · rw [round4Out_eq, if_neg ?_]
    have : n ≤ (players + 1) * n := by
      calc n = 1 * n := (one_mul n).symm
        _ ≤ (players + 1) * n := Nat.mul_le_mul_right n (by omega)
    omega
  · simp only [runProgram, id_eq]
    rw [setupLoop_eq, if_neg (by
      rintro ⟨hb, -⟩
      omega)]

/-- C1: the round draw-count tables for player counts 1..5, and the fact
that the round-4 amount is dealt once per player (p rows of that size). -/
theorem claim_C1_round_draw_counts (p : Nat) (h1 : 1 ≤ p) (h2 : p ≤ 5) :
    round_3_a_cards p = (if 2 < p then p else 0)
    ∧ round_4_c_cards p =
        (if p = 2 then 4 else if p = 3 then 3 else if p = 4 ∨ p = 5 then 2 else 0)
    ∧ round_5_b_cards p = (if p = 3 ∨ p = 4 then 2 else if p = 5 then 3 else 0)
    ∧ (∀ pool evs, round4Out p (round_4_c_cards p) pool = Except.ok evs →
        (eventRows evs).length = p ∧ ∀ r ∈ eventRows evs, r.length = round_4_c_cards p) := by
  refine ⟨?_, ?_, ?_, ?_⟩
  · interval_cases p <;> decide
  · interval_cases p <;> decide
  · interval_cases p <;> decide
  · intro pool evs hok
    obtain ⟨hlen, rfl⟩ := round4Out_ok_inv p (round_4_c_cards p) pool evs hok
    simp only [eventRows_cons_header]
    exact ⟨(round4Rows_facts p 0 (round_4_c_cards p) pool hlen).1,
      (round4Rows_facts p 0 (round_4_c_cards p) pool hlen).2.1⟩

/-- Witness for C1 at player count 3. -/
theorem claim_C1_witness :
    round_3_a_cards 3 = (if 2 < 3 then 3 else 0)
    ∧ round_4_c_cards 3 =
        (if 3 = 2 then 4 else if 3 = 3 then 3 else if 3 = 4 ∨ 3 = 5 then 2 else 0)
    ∧ round_5_b_cards 3 = (if 3 = 3 ∨ 3 = 4 then 2 else if 3 = 5 then 3 else 0)
    ∧ (∀ pool evs, round4Out 3 (round_4_c_cards 3) pool = Except.ok evs →
        (eventRows evs).length = 3 ∧ ∀ r ∈ eventRows evs, r.length = round_4_c_cards 3) :=
  claim_C1_round_draw_counts 3 (by decide) (by decide)

/-- C2 (amended): each of the three setup rows is 2 cards from the B pool
followed by 3 from the A pool — so 5 cards per row, and in total the
first 6 B cards and the first 9 A cards are consumed (not 15 A cards). -/
theorem claim_C2_initial_setup_rows (d : Decks) (a b : List Building)
    (evs : List OutEvent) (dealt : List String)
    (h : setupLoop d 3 a b [] = Except.ok (evs, dealt)) :
    (eventRows evs).length = 3
    ∧ eventRows evs = [b.take 2 ++ a.take 3,
        (b.drop 2).take 2 ++ (a.drop 3).take 3,
        ((b.drop 2).drop 2).take 2 ++ ((a.drop 3).drop 3).take 3]
    ∧ (∀ r ∈ eventRows evs, r.length = 5)
    ∧ ((eventRows evs).map (fun r => r.take 2)).flatten = b.take 6
    ∧ ((eventRows evs).map (fun r => r.drop 2)).flatten = a.take 9 := by
  obtain ⟨hb, ha, rfl, -⟩ := setupLoop_ok_inv d 3 a b [] evs dealt h
  have hb6 : 6 ≤ b.length := by omega
  have ha9 : 9 ≤ a.length := by omega
  have hbt1 : (b.take 2).length = 2 := by rw [List.length_take]; omega
  have hbt2 : ((b.drop 2).take 2).length = 2 := by
    simp only [List.length_take, List.length_drop]; omega
  have hbt3 : (((b.drop 2).drop 2).take 2).length = 2 := by
    simp only [List.length_take, List.length_drop]; omega
  have hat1 : (a.take 3).length = 3 := by rw [List.length_take]; omega
  have hat2 : ((a.drop 3).take 3).length = 3 := by
    simp only [List.length_take, List.length_drop]; omega
  have hat3 : (((a.drop 3).drop 3).take 3).length = 3 := by
    simp only [List.length_take, List.length_drop]; omega
  refine ⟨rfl, rfl, ?_, ?_, ?_⟩
  · intro r hr
    simp only [setupRows, eventRows_cons_row, eventRows_nil, List.mem_cons,
      List.not_mem_nil, or_false] at hr
    rcases hr with rfl | rfl | rfl <;>
      simp only [List.length_append, hbt1, hbt2, hbt3, hat1, hat2, hat3]
  · simp only [setupRows, eventRows_cons_row, eventRows_nil, List.map_cons, List.map_nil,
      List.flatten_cons, List.flatten_nil]
    rw [List.take_left' hbt1, List.take_left' hbt2, List.take_left' hbt3]
    have h1 : b.take 6 = b.take 2 ++ (b.drop 2).take 4 := List.take_add b 2 4
    have h2 : (b.drop 2).take 4 = (b.drop 2).take 2 ++ ((b.drop 2).drop 2).take 2 :=
      List.take_add (b.drop 2) 2 2
    rw [h1, h2]
    simp
  · simp only [setupRows, eventRows_cons_row, eventRows_nil, List.map_cons, List.map_nil,
      List.flatten_cons, List.flatten_nil]
    rw [List.drop_left' hbt1, List.drop_left' hbt2, List.drop_left' hbt3]
    have h9 : a.take 9 = a.take 3 ++ (a.drop 3).take 6 := List.take_add a 3 6
    have h6 : (a.drop 3).take 6 = (a.drop 3).take 3 ++ ((a.drop 3).drop 3).take 3 :=
      List.take_add (a.drop 3) 3 3
    rw [h9, h6]
    simp

/-- A sample card record for concrete runs. -/
def mkCard (nm num : String) (d : Decks) (abc : String) : Building :=
  { name := nm, number := num, deck := d, abc := abc, color := "Once" }

/-- A concrete (already shuffled) setup A pool: 15 Codfish "A" cards. -/
def samplePoolA : List Building :=
  [mkCard "A1" "1" Decks.Codfish "A", mkCard "A2" "2" Decks.Codfish "A",
   mkCard "A3" "3" Decks.Codfish "A", mkCard "A4" "4" Decks.Codfish "A",
   mkCard "A5" "5" Decks.Codfish "A", mkCard "A6" "6" Decks.Codfish "A",
   mkCard "A7" "7" Decks.Codfish "A", mkCard "A8" "8" Decks.Codfish "A",
   mkCard "A9" "9" Decks.Codfish "A", mkCard "A10" "10" Decks.Codfish "A",
   mkCard "A11" "11" Decks.Codfish "A", mkCard "A12" "12" Decks.Codfish "A",
   mkCard "A13" "13" Decks.Codfish "A", mkCard "A14" "14" Decks.Codfish "A",
   mkCard "A15" "15" Decks.Codfish "A"]

/-- A concrete (already shuffled) setup B pool: 6 Codfish "B" cards. -/
def samplePoolB : List Building :=
  [mkCard "B1" "21" Decks.Codfish "B", mkCard "B2" "22" Decks.Codfish "B",
   mkCard "B3" "23" Decks.Codfish "B", mkCard "B4" "24" Decks.Codfish "B",
   mkCard "B5" "25" Decks.Codfish "B", mkCard "B6" "26" Decks.Codfish "B"]

/-- A concrete full dataset: the 6 B cards followed by the 15 A cards. -/
def sampleAll : List Building :=
  samplePoolB ++ samplePoolA

/-- C2 counterexample: on a concrete run whose A pool offers 15 cards,
initial setup consumes only 9 A cards — not the 15 the claim states. -/
theorem claim_C2_counterexample :
    samplePoolA.length = 15
    ∧ (setupLoop Decks.Codfish 3 samplePoolA samplePoolB []).toOption.map
        (fun pr => (((eventRows pr.1).map (fun r => r.drop 2)).flatten).length) = some 9
    ∧ (9 : Nat) ≠ 15 := by
  refine ⟨rfl, rfl, by decide⟩

/-- Witness for C2 (amended) on the concrete sample pools. -/
theorem claim_C2_witness :
    (eventRows (setupRows 3 samplePoolA samplePoolB)).length = 3
    ∧ eventRows (setupRows 3 samplePoolA samplePoolB) =
        [samplePoolB.take 2 ++ samplePoolA.take 3,
         (samplePoolB.drop 2).take 2 ++ (samplePoolA.drop 3).take 3,
         ((samplePoolB.drop 2).drop 2).take 2 ++ ((samplePoolA.drop 3).drop 3).take 3]
    ∧ (∀ r ∈ eventRows (setupRows 3 samplePoolA samplePoolB), r.length = 5)
    ∧ ((eventRows (setupRows 3 samplePoolA samplePoolB)).map (fun r => r.take 2)).flatten =
        samplePoolB.take 6
    ∧ ((eventRows (setupRows 3 samplePoolA samplePoolB)).map (fun r => r.drop 2)).flatten =
        samplePoolA.take 9 :=
  claim_C2_initial_setup_rows Decks.Codfish samplePoolA samplePoolB
    (setupRows 3 samplePoolA samplePoolB)
    (setupDealt Decks.Codfish 3 samplePoolA samplePoolB []) rfl

/-- C3: identifiers recorded as dealt during initial setup never appear
among the cards drawn in round 3 (A pool) or round 5 (B pool); the
round-4 C pool is exempt — membership in it never consults the dealt
set. -/
theorem claim_C3_dealt_not_redrawn (all : List Building) (d : Decks)
    (sa sb shIA shIB : List Building) (sevs evs3 evs5 : List OutEvent)
    (dealt : List String) (hdr3 hdr5 : String) (n3 n5 : Nat)
    (_hsetup : setupLoop d 3 sa sb [] = Except.ok (sevs, dealt))
    (hA : shIA.Perm (ingame_a_buildings all d dealt))
    (hB : shIB.Perm (ingame_b_buildings all d dealt))
    (h3 : roundOut hdr3 n3 shIA = Except.ok evs3)
    (h5 : roundOut hdr5 n5 shIB = Except.ok evs5) :
    (∀ r ∈ eventRows evs3, ∀ c ∈ r, c.number ∉ dealt)
    ∧ (∀ r ∈ eventRows evs5, ∀ c ∈ r, c.number ∉ dealt)
    ∧ (∀ c : Building, c ∈ ingame_c_buildings all d ↔
        (c ∈ all ∧ c.deck = d ∧ c.abc = "C")) := by
  have hAmem : ∀ c : Building, c ∈ ingame_a_buildings all d dealt → c.number ∉ dealt := by
    intro c hc
    simp only [ingame_a_buildings, List.mem_filter, Bool.and_eq_true, Bool.not_eq_true',
      decide_eq_true_eq, decide_eq_false_iff_not] at hc
    exact hc.2.2
  have hBmem : ∀ c : Building, c ∈ ingame_b_buildings all d dealt → c.number ∉ dealt := by
    intro c hc
    simp only [ingame_b_buildings, List.mem_filter, Bool.and_eq_true, Bool.not_eq_true',
      decide_eq_true_eq, decide_eq_false_iff_not] at hc
    exact hc.2.2
  refine ⟨?_, ?_, ?_⟩
  · intro r hr c hc
    rcases roundOut_ok_inv hdr3 n3 shIA evs3 h3 with ⟨-, rfl⟩ | ⟨-, -, rfl⟩
    · simp at hr
    · simp only [eventRows_cons_header, eventRows_cons_row, eventRows_nil] at hr
      rcases List.mem_cons.mp hr with rfl | hr
      · exact hAmem c (hA.mem_iff.mp (List.mem_of_mem_take hc))
      · simp at hr
  · intro r hr c hc
    rcases roundOut_ok_inv hdr5 n5 shIB evs5 h5 with ⟨-, rfl⟩ | ⟨-, -, rfl⟩
    · simp at hr
    · simp only [eventRows_cons_header, eventRows_cons_row, eventRows_nil] at hr
      rcases List.mem_cons.mp hr with rfl | hr
      · exact hBmem c (hB.mem_iff.mp (List.mem_of_mem_take hc))
      · simp at hr
  · intro c
    simp only [ingame_c_buildings, List.mem_filter, Bool.and_eq_true, decide_eq_true_eq,
      and_assoc]

/-- Witness for C3 on a concrete run (empty record list, zero draws). -/
theorem claim_C3_witness :
    (∀ r ∈ eventRows ([] : List OutEvent), ∀ c ∈ r,
        c.number ∉ setupDealt Decks.Codfish 3 samplePoolA samplePoolB [])
    ∧ (∀ r ∈ eventRows ([] : List OutEvent), ∀ c ∈ r,
        c.number ∉ setupDealt Decks.Codfish 3 samplePoolA samplePoolB [])
    ∧ (∀ c : Building, c ∈ ingame_c_buildings [] Decks.Codfish ↔
        (c ∈ ([] : List Building) ∧ c.deck = Decks.Codfish ∧ c.abc = "C")) :=
  claim_C3_dealt_not_redrawn [] Decks.Codfish samplePoolA samplePoolB [] []
    (setupRows 3 samplePoolA samplePoolB) [] []
    (setupDealt Decks.Codfish 3 samplePoolA samplePoolB []) "h3" "h5" 0 0
    rfl (List.Perm.refl _) (List.Perm.refl _) rfl rfl

/-- C5 counterexample: with 1 player the round-4 draw count is 0, yet the
run still prints the round-4 header (and a player line and an empty row)
— the round is not skipped. -/
theorem claim_C5_counterexample :
    round_4_c_cards 1 = 0
    ∧ (runProgram 1 Decks.Codfish [Decks.Codfish] sampleAll id id id id id).toOption.map
        (fun evs => decide (OutEvent.header "******** ROUND 4 CARDS ********" ∈ evs))
      = some true := by
  exact ⟨rfl, rfl⟩

/-- C5 (amended): rounds 3 and 5 with a zero draw count are skipped
entirely — no header, no rows — but round 4 is not: its header is always
printed, followed by one (possibly empty) row per player, even when its
draw count is zero. -/
theorem claim_C5_zero_draw_rounds (hdr : String) (pool poolC : List Building)
    (players n : Nat) (evs : List OutEvent)
    (h4 : round4Out players n poolC = Except.ok evs) :
    roundOut hdr 0 pool = Except.ok []
    ∧ round4Out players 0 poolC =
        Except.ok (OutEvent.header "******** ROUND 4 CARDS ********" ::
          round4Rows players 0 0 poolC)
    ∧ evs.head? = some (OutEvent.header "******** ROUND 4 CARDS ********")
    ∧ (eventRows evs).length = players := by
  obtain ⟨hlen, rfl⟩ := round4Out_ok_inv players n poolC evs h4
  refine ⟨by rw [roundOut_eq]; simp, ?_, rfl, ?_⟩
  · rw [round4Out_eq, if_pos (by simp)]
  · simp only [eventRows_cons_header]
    exact (round4Rows_facts players 0 n poolC hlen).1

/-- Witness for C5 (amended) at 1 player and an empty C pool. -/
theorem claim_C5_witness :
    roundOut "h" 0 [] = Except.ok []
    ∧ round4Out 1 0 [] =
        Except.ok (OutEvent.header "******** ROUND 4 CARDS ********" :: round4Rows 1 0 0 [])
    ∧ (OutEvent.header "******** ROUND 4 CARDS ********" :: round4Rows 1 0 0 []).head? =
        some (OutEvent.header "******** ROUND 4 CARDS ********")
    ∧ (eventRows (OutEvent.header "******** ROUND 4 CARDS ********" ::
        round4Rows 1 0 0 [])).length = 1 :=
  claim_C5_zero_draw_rounds "h" [] [] 1 0
    (OutEvent.header "******** ROUND 4 CARDS ********" :: round4Rows 1 0 0 []) rfl

/-- C10: rows printed for rounds 3, 4 and 5 carry the flags
(separator := false, spoiler := true), so every name and identifier in
them is colored black regardless of the category label; the three
initial-setup rows carry (separator := true, spoiler := false), so their
text is colored by category label and the separator bar appears after the
second card. -/
theorem claim_C10_render_flags (text color : String) (cards : List Building)
    (d : Decks) (k : Nat) (a b : List Building) :
    colorize text color true = (text, DisplayColor.black)
    ∧ (∀ cell ∈ (print_card_row cards false true).nameCells, cell.2 = DisplayColor.black)
    ∧ (∀ cell ∈ (print_card_row cards false true).numberCells, cell.2 = DisplayColor.black)
    ∧ (print_card_row cards false true).separatorAfterSecond = false
    ∧ (print_card_row cards true false).nameCells =
        cards.map (fun c => colorize c.name c.color false)
    ∧ (2 ≤ cards.length → (print_card_row cards true false).separatorAfterSecond = true)
    ∧ (∀ cs sep sp, OutEvent.cardRow cs sep sp ∈ setupRows k a b → sep = true ∧ sp = false)
    ∧ (∀ dealt0 evs dealtF, setupLoop d k a b dealt0 = Except.ok (evs, dealtF) →
        ∀ cs sep sp, OutEvent.cardRow cs sep sp ∈ evs → sep = true ∧ sp = false)
    ∧ (∀ hdr n pool evs, roundOut hdr n pool = Except.ok evs →
        ∀ cs sep sp, OutEvent.cardRow cs sep sp ∈ evs → sep = false ∧ sp = true)
    ∧ (∀ p n pool evs, round4Out p n pool = Except.ok evs →
        ∀ cs sep sp, OutEvent.cardRow cs sep sp ∈ evs → sep = false ∧ sp = true) := by
  refine ⟨rfl, ?_, ?_, rfl, rfl, ?_, ?_, ?_, ?_, ?_⟩
  · intro cell hc
    simp only [print_card_row, List.mem_map] at hc
    obtain ⟨c, -, rfl⟩ := hc
    rfl
  · intro cell hc
    simp only [print_card_row, List.mem_map] at hc
    obtain ⟨c, -, rfl⟩ := hc
    rfl
  · intro h
    simp [print_card_row, h]
  · intro cs sep sp h
    exact setupRows_flags k a b cs sep sp h
  · intro dealt0 evs dealtF h cs sep sp hmem
    obtain ⟨-, -, rfl, -⟩ := setupLoop_ok_inv d k a b dealt0 evs dealtF h
    exact setupRows_flags k a b cs sep sp hmem
  · intro hdr n pool evs h cs sep sp hmem
    rcases roundOut_ok_inv hdr n pool evs h with ⟨-, rfl⟩ | ⟨-, -, rfl⟩
    · simp at hmem
    · rcases List.mem_cons.mp hmem with h1 | h1
      · cases h1
      · rcases List.mem_cons.mp h1 with h2 | h2
        · cases h2; exact ⟨rfl, rfl⟩
        · simp at h2
  · intro p n pool evs h cs sep sp hmem
    obtain ⟨-, rfl⟩ := round4Out_ok_inv p n pool evs h
    rcases List.mem_cons.mp hmem with h1 | h1
    · cases h1
    · exact round4Rows_flags p 0 n pool cs sep sp h1

/-- Witness for C8 on an empty pool and an empty record list. -/
theorem claim_C8_witness :
    drawN 1 [] = Except.error ()
    ∧ roundOut "h" 1 [] = Except.error ()
    ∧ round4Out (0 + 1) 1 [] = Except.error ()
    ∧ runProgram 0 Decks.Codfish [Decks.Codfish] [] id id id id id = Except.error () :=
  claim_C8_pool_exhaustion_fatal 1 [] "h" 0 Decks.Codfish [Decks.Codfish] [] id id id id
    (by decide) (by decide)
